import Mathlib

/-!
Verification of the Clemson soil-sample report scrapers.

This file gives a shallow embedding, in Lean 4, of the two Python scripts of
the repository — `clemson_report_automation.py` and `streamlit_app.py` — and
proves (or refutes) a fixed list of claims about them.

Modelling conventions:
* Python strings are Lean `String`s; Python `in` on strings is the
  char-list infix test `pyIn`; `str.strip` / `str.lower` are modelled on the
  ASCII whitespace / letter range (all the literals the scripts manipulate
  are ASCII).
* Python dicts are association lists (`List (String × α)`) with
  insert-overwrites-in-place semantics (`alistInsert`) matching CPython's
  insertion-ordered dicts.
* Exceptions are modelled with `Option`: a code path that raises inside a
  `try` block and is answered by `except ...: return None` (or by skipping
  the row) evaluates to `none`.
* HTML pages are modelled by the shape the scripts actually consult:
  a row of an analysis table is its first `th` text (if any) together with
  the text of the `td` sibling following that `th` (if any), etc.
-/

/-! ### Shared Python string primitives -/

/-- The six characters matched by the ASCII part of Python's `\s` and
stripped by `str.strip()`. -/
def isPySpace (c : Char) : Bool :=
  c == ' ' || c == '\t' || c == '\n' || c == '\r' || c == '\x0b' || c == '\x0c'

/-- Python `str.strip()` (ASCII whitespace). -/
def pyStrip (s : String) : String :=
  String.mk (((s.toList.dropWhile isPySpace).reverse.dropWhile isPySpace).reverse)

/-- Python `str.lower()` (ASCII letters; the scripts only lowercase ASCII). -/
def pyLower (s : String) : String :=
  String.mk (s.toList.map Char.toLower)

/-- `startsWithChars p l` : `p` is a prefix of `l` (character lists). -/
def startsWithChars : List Char → List Char → Bool
  | [], _ => true
  | _ :: _, [] => false
  | a :: as, b :: bs => a == b && startsWithChars as bs

/-- `isInfixChars n h` : `n` occurs as a contiguous run inside `h`. -/
def isInfixChars (n : List Char) : List Char → Bool
  | [] => n.isEmpty
  | c :: t => startsWithChars n (c :: t) || isInfixChars n t

/-- Python `needle in hay` on strings (substring test). -/
def pyIn (needle hay : String) : Bool :=
  isInfixChars needle.toList hay.toList

/-- Value of a run of decimal digits. -/
def digitsVal (ds : List Char) : Nat :=
  ds.foldl (fun acc c => acc * 10 + (c.toNat - 48)) 0

/-- Python `int(s)` on a string: optional surrounding whitespace, optional
sign, then decimal digits.  `none` models `int` raising `ValueError`.
(The underscore digit-grouping accepted by CPython is not modelled; the
scripts never produce it.) -/
def pyInt (s : String) : Option Int :=
  let core := ((s.toList.dropWhile isPySpace).reverse.dropWhile isPySpace).reverse
  let signed : List Char → Option Int
    | [] => none
    | ds => if ds.all Char.isDigit then some (Int.ofNat (digitsVal ds)) else none
  match core with
  | '+' :: ds => signed ds
  | '-' :: ds => (signed ds).map (fun n => -n)
  | ds => signed ds

/-! ### Python dict as an association list -/

/-- Lookup in a Python dict modelled as an association list (keys are unique
in every dict the scripts build, so first-match lookup is dict lookup). -/
def alistGet {α : Type} : List (String × α) → String → Option α
  | [], _ => Option.none
  | p :: ps, k => if p.1 = k then some p.2 else alistGet ps k

/-- Python dict assignment `d[k] = v`: overwrite the entry in place if the
key is present, else append at the end (CPython insertion order). -/
def alistInsert {α : Type} : List (String × α) → String → α → List (String × α)
  | [], k, v => [(k, v)]
  | p :: ps, k, v => if p.1 = k then (k, v) :: ps else p :: alistInsert ps k v

/-- A Python value stored in a scraped record: a string, an int, or `None`. -/
inductive PyVal : Type
  | str (s : String)
  | int (n : Int)
  | none
deriving DecidableEq, Repr

/-! ### streamlit_app.py -/

namespace StreamlitApp

/-- Crop-type classification from the report page text
(`streamlit_app.py`, lines 127–133): a fixed `if`/`elif` chain of
substring tests. -/
def crop_type (text : String) : String :=
  if pyIn "Cool-Season" text then "Cool-Season"
  else if pyIn "Warm-Season" text then "Warm-Season"
  else if pyIn "Centipede" text then "Centipede"
  else "N/A"

/-- One attempt of the regex `([0-9]+(?:\.[0-9]+)?)\s*lb/1000` anchored at
the start of `cs`; returns the text of capture group 1 on success.

For this particular pattern greedy matching needs no backtracking: a digit
given up by `[0-9]+` can never be consumed by `\.`, `\s` or the literal
`l`, the optional fraction can only succeed where skipping it fails (the
next char would be `.`, which neither `\s` nor `l` accepts), and a space
given up by `\s*` can never match `l`.  So maximal munch below is exactly
Python's match semantics. -/
def limeMatchAt (cs : List Char) : Option String :=
  let ds := cs.takeWhile Char.isDigit
  if ds.isEmpty then Option.none else
  let rest := cs.drop ds.length
  let grpRest : List Char × List Char :=
    match rest with
    | '.' :: r =>
      let fs := r.takeWhile Char.isDigit
      if fs.isEmpty then (ds, rest) else (ds ++ '.' :: fs, r.drop fs.length)
    | _ => (ds, rest)
  if startsWithChars "lb/1000".toList (grpRest.2.dropWhile isPySpace) then
    some (String.mk grpRest.1)
  else
    Option.none

/-- `re.search` of the lime regex: leftmost position whose match attempt
succeeds. -/
def limeSearchAux : List Char → Option String
  | [] => Option.none
  | c :: rest =>
    match limeMatchAt (c :: rest) with
    | some g => some g
    | Option.none => limeSearchAux rest

/-- `re.search(r"([0-9]+(?:\.[0-9]+)?)\s*lb/1000", text)`, returning
`group(1)`. -/
def limeSearch (text : String) : Option String :=
  limeSearchAux text.toList

/-- Lime extraction (`streamlit_app.py`, lines 135–140): group 1 of the
first regex match, else `"None"` (the `elif "no lime" in text.lower()`
branch assigns the same `"None"` that is already in place). -/
def lime_value (text : String) : String :=
  match limeSearch text with
  | some g => g
  | Option.none => if pyIn "no lime" (pyLower text) then "None" else "None"

/-- The stale-session test of `streamlit_app.py`, line 112. -/
def pageTimeout (html : String) : Bool :=
  pyIn "Page Timeout" html || pyIn "REFRESH your Results page" html

/-- Report-page loading with the timeout retry (`streamlit_app.py`,
lines 106–122): the first fetched page source is kept unless it shows the
timeout message, in which case the results page is refreshed and the
report link is fetched a second time.  Returns the page source that is
parsed together with the number of report fetches performed. -/
def loadReportPage (first retryHtml : String) : String × Nat :=
  if pageTimeout first then (retryHtml, 2) else (first, 1)

/-- The six column indices computed from the results-table headers by
`headers.index(...)` (`streamlit_app.py`, lines 57–63). -/
structure Indices : Type where
  nameIdx : Nat
  dateIdx : Nat
  sampleIdx : Nat
  labIdx : Nat
  phIdx : Nat
  bufferIdx : Nat
deriving DecidableEq, Repr

/-- One output row of the scraper (`streamlit_app.py`, lines 85–94). -/
structure RowRec : Type where
  account : String
  sampleNo : String
  labNum : String
  date : String
  soilPH : String
  bufferPH : String
  crop : String
  lime : String
deriving DecidableEq, Repr

/-- Build the initial record for one results row from its `td` texts
(`streamlit_app.py`, lines 76–94).  `Option.none` models the `IndexError`
raised by `cells[i]` when the row is too short — that exception is not
caught per row and aborts the whole run. -/
def buildRow (ix : Indices) (cells : List String) : Option RowRec := do
  let account ← cells.get? ix.nameIdx
  let dateSamp ← cells.get? ix.dateIdx
  let sampleNo ← cells.get? ix.sampleIdx
  let labNum ← cells.get? ix.labIdx
  let soilPH ← cells.get? ix.phIdx
  let bufferPH ← cells.get? ix.bufferIdx
  pure { account := account, sampleNo := sampleNo, labNum := labNum,
         date := dateSamp, soilPH := soilPH, bufferPH := bufferPH,
         crop := "", lime := "" }

/-- The row-collection loop over `table.find_all("tr")[1:]`
(`streamlit_app.py`, lines 71–94): rows with no `td` cell are skipped
(`if not cells: continue`); an out-of-range cell access aborts the run
(`Option.none`). -/
def buildData (ix : Indices) : List (List String) → Option (List RowRec)
  | [] => some []
  | cells :: rest =>
    if cells.isEmpty then buildData ix rest
    else
      match buildRow ix cells with
      | Option.none => Option.none
      | some r => (buildData ix rest).map (fun tl => r :: tl)

/-- Per-report update (`streamlit_app.py`, lines 98–150): on success the
report text yields `Crop` and `Lime`; on any exception (`outcome = none`)
the `except` branch only logs a warning and the record is left untouched. -/
def updateRow (rec : RowRec) (outcome : Option String) : RowRec :=
  match outcome with
  | Option.none => rec
  | some text =>
    { rec with crop := crop_type text, lime := lime_value text }

/-- The report loop `for idx, lab_num in enumerate(lab_numbers)` mutating
`data[idx]` (`streamlit_app.py`, lines 97–150); `outcomes i` is the report
text obtained for index `i`, or `none` if an exception was raised before
the two assignments of lines 142–143. -/
def reportLoop (outcomes : Nat → Option String) : Nat → List RowRec → List RowRec
  | _, [] => []
  | i, r :: rs => updateRow r (outcomes i) :: reportLoop outcomes (i + 1) rs

/-- The whole run of `streamlit_app.py` after the header row is dropped:
collect one record per non-empty row, then fill `Crop`/`Lime` from each
report.  `Option.none` models the run dying with an uncaught exception
(no dataframe is produced). -/
def scrapeRun (ix : Indices) (trs : List (List String)) (outcomes : Nat → Option String) :
    Option (List RowRec) :=
  (buildData ix (trs.drop 1)).map (reportLoop outcomes 0)

end StreamlitApp

/-! ### clemson_report_automation.py -/

namespace Clemson

/-- A row of the analysis table, as the script consults it: the text of the
row's first `th` (if any) and the text of the `td` sibling following that
`th` (if any). -/
structure Row : Type where
  header : Option String
  valueCell : Option String
deriving DecidableEq, Repr

/-- The `tblAnalysis` table; `tbody = none` models a table without a
`tbody` tag (`find('tbody')` returns `None` and the subsequent
`.find_all` raises). -/
structure Table : Type where
  tbody : Option (List Row)
deriving DecidableEq, Repr

/-- The `Recommendations` table: its `tbody` rows as lists of `td` texts. -/
structure RecTable : Type where
  tbody : Option (List (List String))
deriving DecidableEq, Repr

/-- What `scrape_report_with_selenium` reads off a rendered report page. -/
structure ReportPage : Type where
  analysisTable : Option Table
  recTable : Option RecTable
deriving DecidableEq, Repr

/-- One report to scrape: the `id` query parameter of its URL
(`parse_qs(...).get('id', [None])[0]`), the rendered page, and whether
fetching/rendering the page raises (`driver.get` failure etc.). -/
structure ReportInput : Type where
  fetchFails : Bool
  labParam : Option String
  page : ReportPage
deriving DecidableEq, Repr

/-- The label-substring → output-key `if`/`elif` chain of
`get_analysis_data` (`clemson_report_automation.py`, lines 47–61), in
source order. -/
def labelTable : List (String × String) :=
  [("Soil pH", "Soil pH"),
   ("Buffer pH", "Buffer pH"),
   ("Phosphorus (P)", "P (lbs/A)"),
   ("Potassium (K)", "K (lbs/A)"),
   ("Calcium (Ca)", "Ca (lbs/A)"),
   ("Magnesium (Mg)", "Mg (lbs/A)"),
   ("Zinc (Zn)", "Zn (lbs/A)"),
   ("Manganese (Mn)", "Mn (lbs/A)"),
   ("Copper (Cu)", "Cu (lbs/A)"),
   ("Boron (B)", "B (lbs/A)"),
   ("Sodium (Na)", "Na (lbs/A)"),
   ("Sulfur (S)", "S (lbs/A)"),
   ("Soluble Salts", "EC (mmhos/cm)"),
   ("Nitrate Nitrogen", "NO3-N (ppm)"),
   ("Organic Matter", "OM (%)")]

/-- What one row contributes to the analysis dict: the renamed key of the
first label (in chain order) contained in the stripped header, with the
stripped `td` text — or nothing when the row has no `th`, no following
`td`, or no recognized label. -/
def rowContribution (row : Row) : Option (String × String) :=
  match row.header with
  | Option.none => Option.none
  | some h =>
    match row.valueCell with
    | Option.none => Option.none
    | some v =>
      match labelTable.find? (fun p => pyIn p.1 (pyStrip h)) with
      | some p => some (p.2, pyStrip v)
      | Option.none => Option.none

/-- `get_analysis_data` (`clemson_report_automation.py`, lines 36–64).
A `None` table returns `{}`; a table without `tbody` raises inside the
`try`, the `except` logs a warning and the partial dict — still `{}` —
is returned. -/
def get_analysis_data : Option Table → List (String × String)
  | Option.none => []
  | some t =>
    match t.tbody with
    | Option.none => []
    | some rows =>
      rows.foldl
        (fun d r =>
          match rowContribution r with
          | some kv => alistInsert d kv.1 kv.2
          | Option.none => d)
        []

/-- Python truthiness of `lab_num` (an `Optional[str]`). -/
def labTruthy : Option String → Bool
  | Option.none => false
  | some s => !s.isEmpty

/-- `'LabNum' in existing_df.columns`: the accumulated frame has a
`LabNum` column iff some accumulated record carries the key (the empty
initial `pd.DataFrame()` has no columns). -/
def hasLabNumCol (df : List (List (String × PyVal))) : Bool :=
  df.any (fun r => (alistGet r "LabNum").isSome)

/-- The integer `LabNum` cell of a record, if it is an integer (a `None`
cell is `NaN` in pandas and equal to no integer). -/
def labOf (r : List (String × PyVal)) : Option Int :=
  match alistGet r "LabNum" with
  | some (PyVal.int n) => some n
  | _ => Option.none

/-- `int(lab_num) if lab_num else None` (`clemson_report_automation.py`,
line 89); the outer `none` models `int` raising `ValueError`. -/
def labNumVal : Option String → Option PyVal
  | Option.none => some PyVal.none
  | some s =>
    if s.isEmpty then some PyVal.none
    else (pyInt s).map PyVal.int

/-- Crop type and lime recommendation from the recommendations table
(`clemson_report_automation.py`, lines 91–98); the outer `none` models
the `AttributeError` of `.find('tbody').find_all(...)` when the table has
no `tbody` (that exception aborts the whole report). -/
def cropLime : Option RecTable → Option (String × String)
  | Option.none => some ("None", "N/A")
  | some t =>
    match t.tbody with
    | Option.none => Option.none
    | some rows =>
      match rows with
      | _ :: second :: _ =>
        match second with
        | [] => some ("None", "N/A")
        | [a] => some (pyStrip a, "N/A")
        | a :: b :: _ => some (pyStrip a, pyStrip b)
      | _ => some ("None", "N/A")

/-- The fixed output schema (`clemson_report_automation.py`,
lines 104–109). -/
def all_columns : List String :=
  ["LabNum", "Soil pH", "Buffer pH", "P (lbs/A)", "K (lbs/A)", "Ca (lbs/A)",
   "Mg (lbs/A)", "Zn (lbs/A)", "Mn (lbs/A)", "Cu (lbs/A)", "B (lbs/A)",
   "Na (lbs/A)", "S (lbs/A)", "EC (mmhos/cm)", "NO3-N (ppm)", "OM (%)",
   "Bulk Density (lbs/A)", "Crop Type", "Lime (lbs/1,000 ft² or /A)"]

/-- The `report_data` dict after lines 88–102: the analysis dict, then the
assignments of `LabNum`, `Crop Type`, `Lime (lbs/1,000 ft² or /A)` and
`Bulk Density (lbs/A)`. -/
def reportDict (lv : PyVal) (cl : String × String) (analysisTable : Option Table) :
    List (String × PyVal) :=
  alistInsert
    (alistInsert
      (alistInsert
        (alistInsert
          ((get_analysis_data analysisTable).map (fun p => (p.1, PyVal.str p.2)))
          "LabNum" lv)
        "Crop Type" (PyVal.str cl.1))
      "Lime (lbs/1,000 ft² or /A)" (PyVal.str cl.2))
    "Bulk Density (lbs/A)" (PyVal.str "N/A")

/-- Lines 85–111 of `clemson_report_automation.py`: build the report record
once the duplicate check has passed; `{col: report_data.get(col, 'N/A') for
col in all_columns}` at the end. -/
def buildRecord (inp : ReportInput) : Option (List (String × PyVal)) :=
  match labNumVal inp.labParam with
  | Option.none => Option.none
  | some lv =>
    match cropLime inp.page.recTable with
    | Option.none => Option.none
    | some cl =>
      some (all_columns.map
        (fun c => (c, (alistGet (reportDict lv cl inp.page.analysisTable) c).getD (PyVal.str "N/A"))))

/-- `scrape_report_with_selenium` (`clemson_report_automation.py`,
lines 67–115).  Every exception raised inside the `try` — a fetch failure,
`int()` on a non-numeric id, a recommendations table without `tbody` — is
caught by the `except`, which logs and returns `None`; a report whose id
is already among the accumulated `LabNum`s is skipped with `None` as
well. -/
def scrape_report_with_selenium (inp : ReportInput)
    (existing : List (List (String × PyVal))) : Option (List (String × PyVal)) :=
  if inp.fetchFails then Option.none
  else if labTruthy inp.labParam && hasLabNumCol existing then
    match pyInt (inp.labParam.getD "") with
    | Option.none => Option.none
    | some n =>
      if some n ∈ existing.map labOf then Option.none
      else buildRecord inp
  else buildRecord inp

/-- One iteration of the `for i, link in enumerate(report_links)` loop
(`clemson_report_automation.py`, lines 156–167), acting on the pair
`(all_data, temp_df)`. -/
def loopStep (st : List (List (String × PyVal)) × List (List (String × PyVal)))
    (inp : ReportInput) :
    List (List (String × PyVal)) × List (List (String × PyVal)) :=
  match scrape_report_with_selenium inp st.2 with
  | some r => (st.1 ++ [r], st.2 ++ [r])
  | Option.none => st

/-- `drop_duplicates(subset=['LabNum'])` (keep-first; pandas treats the
`NaN` of a missing `LabNum` as equal to itself). -/
def dropDupLab : List (List (String × PyVal)) → List (Option Int) →
    List (List (String × PyVal))
  | [], _ => []
  | r :: rs, seen =>
    if labOf r ∈ seen then dropDupLab rs seen
    else r :: dropDupLab rs (labOf r :: seen)

/-- The `sort_values(by='LabNum')` order: integers ascending, `NaN` last. -/
def labLe (a b : List (String × PyVal)) : Bool :=
  match labOf a, labOf b with
  | Option.none, _ => (labOf b).isNone
  | some _, Option.none => true
  | some m, some n => m ≤ n

def insertLab (r : List (String × PyVal)) :
    List (List (String × PyVal)) → List (List (String × PyVal))
  | [] => [r]
  | s :: ss => if labLe r s then r :: s :: ss else s :: insertLab r ss

/-- `sort_values(by='LabNum')`, modelled as a sorting permutation of the
rows. -/
def sortByLab : List (List (String × PyVal)) → List (List (String × PyVal))
  | [] => []
  | r :: rs => insertLab r (sortByLab rs)

/-- One completed `Start Scraping` run (`clemson_report_automation.py`,
lines 152–171): fold the per-report step over the links starting from
`all_data = []`, `temp_df = session`; then, if anything was scraped,
replace the session table by
`concat([session, all_data]).drop_duplicates(subset=['LabNum']).sort_values(by='LabNum')`. -/
def runRun (links : List ReportInput) (session : List (List (String × PyVal))) :
    List (List (String × PyVal)) :=
  let res := links.foldl loopStep ([], session)
  if res.1.isEmpty then session
  else sortByLab (dropDupLab (session ++ res.1) [])

end Clemson

/-! ### base64 and UTF-8 (for `get_table_download_link`) -/

/-- The standard base64 alphabet. -/
def b64Alphabet : List Char :=
  "ABCDEFGHIJKLMNOPQRSTUVWXYZabcdefghijklmnopqrstuvwxyz0123456789+/".toList

/-- Character for a six-bit value. -/
def sixBitChar (n : Nat) : Char := b64Alphabet.getD n '?'

/-- Six-bit value of an alphabet character (`none` for a non-alphabet
character). -/
def sixBitOf (c : Char) : Option Nat := b64Alphabet.findIdx? (fun a => a == c)

/-- `base64.b64encode` on a byte list (bytes as `Nat < 256`). -/
def b64EncodeBytes : List Nat → List Char
  | a :: b :: c :: rest =>
    sixBitChar (a / 4) :: sixBitChar (a % 4 * 16 + b / 16) ::
      sixBitChar (b % 16 * 4 + c / 64) :: sixBitChar (c % 64) :: b64EncodeBytes rest
  | [a, b] => [sixBitChar (a / 4), sixBitChar (a % 4 * 16 + b / 16), sixBitChar (b % 16 * 4), '=']
  | [a] => [sixBitChar (a / 4), sixBitChar (a % 4 * 16), '=', '=']
  | [] => []

/-- `base64.b64decode` on a properly padded base64 text (the only shape the
script ever feeds it). -/
def b64DecodeChars : List Char → Option (List Nat)
  | c1 :: c2 :: c3 :: c4 :: rest =>
    (match sixBitOf c1, sixBitOf c2 with
     | some w, some x =>
       if c3 = '=' then
         if c4 = '=' ∧ rest.isEmpty then some [w * 4 + x / 16] else Option.none
       else
         (match sixBitOf c3 with
          | some y =>
            if c4 = '=' then
              if rest.isEmpty then some [w * 4 + x / 16, x % 16 * 16 + y / 4] else Option.none
            else
              (match sixBitOf c4 with
               | some z =>
                 (b64DecodeChars rest).map
                   (fun tl => (w * 4 + x / 16) :: (x % 16 * 16 + y / 4) :: (y % 4 * 64 + z) :: tl)
               | Option.none => Option.none)
          | Option.none => Option.none)
     | _, _ => Option.none)
  | [] => some []
  | _ => Option.none

/-- `base64.b64decode` on a string, yielding bytes. -/
def b64DecodeString (s : String) : Option (List Nat) := b64DecodeChars s.toList

/-- UTF-8 encoding of one code point (what `str.encode()` does per
character). -/
def utf8EncodeChar (c : Char) : List Nat :=
  let n := c.toNat
  if n < 128 then [n]
  else if n < 2048 then [192 + n / 64, 128 + n % 64]
  else if n < 65536 then [224 + n / 4096, 128 + n / 64 % 64, 128 + n % 64]
  else [240 + n / 262144, 128 + n / 4096 % 64, 128 + n / 64 % 64, 128 + n % 64]

def utf8EncodeList : List Char → List Nat
  | [] => []
  | c :: cs => utf8EncodeChar c ++ utf8EncodeList cs

/-- Python `csv.encode()`: the UTF-8 bytes of a string. -/
def utf8Encode (s : String) : List Nat := utf8EncodeList s.toList

mutual

/-- UTF-8 decoding to code points (what `bytes.decode()` does), split by
the number of continuation bytes the lead byte announces. -/
def utf8DecodeCodes : List Nat → Option (List Nat)
  | [] => some []
  | b :: rest =>
    if b < 128 then (utf8DecodeCodes rest).map (fun tl => b :: tl)
    else if 192 ≤ b ∧ b < 224 then utf8Tail1 b rest
    else if 224 ≤ b ∧ b < 240 then utf8Tail2 b rest
    else if 240 ≤ b ∧ b < 248 then utf8Tail3 b rest
    else Option.none

/-- One continuation byte. -/
def utf8Tail1 (b : Nat) : List Nat → Option (List Nat)
  | b1 :: r =>
    if 128 ≤ b1 ∧ b1 < 192 then
      (utf8DecodeCodes r).map (fun tl => ((b - 192) * 64 + (b1 - 128)) :: tl)
    else Option.none
  | [] => Option.none

/-- Two continuation bytes. -/
def utf8Tail2 (b : Nat) : List Nat → Option (List Nat)
  | b1 :: b2 :: r =>
    if (128 ≤ b1 ∧ b1 < 192) ∧ (128 ≤ b2 ∧ b2 < 192) then
      (utf8DecodeCodes r).map
        (fun tl => ((b - 224) * 4096 + (b1 - 128) * 64 + (b2 - 128)) :: tl)
    else Option.none
  | _ => Option.none

/-- Three continuation bytes. -/
def utf8Tail3 (b : Nat) : List Nat → Option (List Nat)
  | b1 :: b2 :: b3 :: r =>
    if (128 ≤ b1 ∧ b1 < 192) ∧ (128 ≤ b2 ∧ b2 < 192) ∧ (128 ≤ b3 ∧ b3 < 192) then
      (utf8DecodeCodes r).map
        (fun tl =>
          ((b - 240) * 262144 + (b1 - 128) * 4096 + (b2 - 128) * 64 + (b3 - 128)) :: tl)
    else Option.none
  | _ => Option.none

end

namespace Clemson

/-- `get_table_download_link` (`clemson_report_automation.py`,
lines 118–121), parametrized by the CSV text `df.to_csv(index=False)`:
the f-string wraps the base64 of the UTF-8 bytes of the CSV. -/
def get_table_download_link (csv : String) : String :=
  "<a href=\"data:file/csv;base64," ++ String.mk (b64EncodeBytes (utf8Encode csv)) ++
    "\" download=\"clemson_soil_report_data.csv\">Download CSV file</a>"

/-- The payload embedded in the `href`: the characters between the first
occurrence of `base64,` and the next double quote. -/
def payloadAux : List Char → List Char
  | [] => []
  | c :: rest =>
    if startsWithChars "base64,".toList (c :: rest) then
      ((c :: rest).drop 7).takeWhile (fun ch => ch != '"')
    else payloadAux rest

def payloadOf (link : String) : String := String.mk (payloadAux link.toList)

end Clemson

/-- All six column indices fall inside the row's cell list (the implicit
well-formedness the results table provides in practice). -/
abbrev StreamlitApp.rowCovers (ix : StreamlitApp.Indices) (cells : List String) : Prop :=
  ix.nameIdx < cells.length ∧ ix.dateIdx < cells.length ∧ ix.sampleIdx < cells.length ∧
    ix.labIdx < cells.length ∧ ix.phIdx < cells.length ∧ ix.bufferIdx < cells.length

/-- The record lines 85–94 build for a covered row, with `Crop` and
`Lime (lbs/1000ft²)` initialized to the empty string. -/
def StreamlitApp.initRow (ix : StreamlitApp.Indices) (cells : List String) :
    StreamlitApp.RowRec :=
  { account := (cells.get? ix.nameIdx).getD "",
    sampleNo := (cells.get? ix.sampleIdx).getD "",
    labNum := (cells.get? ix.labIdx).getD "",
    date := (cells.get? ix.dateIdx).getD "",
    soilPH := (cells.get? ix.phIdx).getD "",
    bufferPH := (cells.get? ix.bufferIdx).getD "",
    crop := "", lime := "" }

/-! ### Claims -/

@[simp] theorem alistGet_nil {α : Type} (k : String) :
    alistGet ([] : List (String × α)) k = Option.none := rfl

@[simp] theorem alistGet_insert_same {α : Type} (d : List (String × α)) (k : String) (v : α) :
    alistGet (alistInsert d k v) k = some v := by
  induction d with
  | nil => simp [alistInsert, alistGet]
  | cons p ps ih =>
    by_cases hp : p.1 = k
    · simp [alistInsert, alistGet, hp]
    · simp [alistInsert, alistGet, hp, ih]

theorem alistGet_insert_other {α : Type} (d : List (String × α)) (k k' : String) (v : α)
    (hne : k ≠ k') : alistGet (alistInsert d k' v) k = alistGet d k := by
  induction d with
  | nil => simp [alistInsert, alistGet, Ne.symm hne]
  | cons p ps ih =>
    by_cases hp : p.1 = k'
    · simp [alistInsert, alistGet, hp, Ne.symm hne]
    · by_cases hpk : p.1 = k
      · simp [alistInsert, alistGet, hp, hpk, hne]
      · simp [alistInsert, alistGet, hp, hpk, ih]

/-- C2: crop-type classification is the fixed priority chain
Cool-Season > Warm-Season > Centipede > N/A on substring containment; in
particular a text containing both `Cool-Season` and `Warm-Season` is
classified `Cool-Season`. -/
theorem claim_C2_crop_type_priority (t : String) :
    (pyIn "Cool-Season" t = true → StreamlitApp.crop_type t = "Cool-Season") ∧
    (pyIn "Cool-Season" t = false → pyIn "Warm-Season" t = true →
      StreamlitApp.crop_type t = "Warm-Season") ∧
    (pyIn "Cool-Season" t = false → pyIn "Warm-Season" t = false →
      pyIn "Centipede" t = true → StreamlitApp.crop_type t = "Centipede") ∧
    (pyIn "Cool-Season" t = false → pyIn "Warm-Season" t = false →
      pyIn "Centipede" t = false → StreamlitApp.crop_type t = "N/A") ∧
    (pyIn "Cool-Season" t = true → pyIn "Warm-Season" t = true →
      StreamlitApp.crop_type t = "Cool-Season") := by
  unfold StreamlitApp.crop_type
  refine ⟨?_, ?_, ?_, ?_, ?_⟩ <;> intros <;> simp_all

/-- Witness for C2 at a text containing both season markers. -/
theorem claim_C2_witness :
    pyIn "Cool-Season" "Rates for Cool-Season and Warm-Season turf" = true ∧
    pyIn "Warm-Season" "Rates for Cool-Season and Warm-Season turf" = true ∧
    StreamlitApp.crop_type "Rates for Cool-Season and Warm-Season turf" = "Cool-Season" :=
  ⟨by decide, by decide,
    (claim_C2_crop_type_priority "Rates for Cool-Season and Warm-Season turf").2.2.2.2
      (by decide) (by decide)⟩

/-- C3: the recorded lime value is group 1 of the first match of
`([0-9]+(?:\.[0-9]+)?)\s*lb/1000` when one exists, and the string `None`
otherwise — in particular also when the page merely says `no lime`. -/
theorem claim_C3_lime_extraction (t : String) :
    (∀ g, StreamlitApp.limeSearch t = some g → StreamlitApp.lime_value t = g) ∧
    (StreamlitApp.limeSearch t = Option.none → StreamlitApp.lime_value t = "None") := by
  constructor
  · intro g hg
    unfold StreamlitApp.lime_value
    rw [hg]
  · intro hg
    unfold StreamlitApp.lime_value
    rw [hg]
    split <;> simp_all

/-- Witness for C3 at a page text carrying `25.0 lb/1000`. -/
theorem claim_C3_witness :
    StreamlitApp.limeSearch "Apply 25.0 lb/1000 sq ft of lime" = some "25.0" ∧
    StreamlitApp.lime_value "Apply 25.0 lb/1000 sq ft of lime" = "25.0" :=
  ⟨by decide,
    (claim_C3_lime_extraction "Apply 25.0 lb/1000 sq ft of lime").1 "25.0" (by decide)⟩

/-- The per-row fold step of `get_analysis_data`, spelled through
`rowContribution`. -/
theorem Clemson.foldl_step_eq_filterMap (rows : List Clemson.Row)
    (d : List (String × String)) :
    rows.foldl
      (fun d r =>
        match Clemson.rowContribution r with
        | some kv => alistInsert d kv.1 kv.2
        | Option.none => d) d
    = (rows.filterMap Clemson.rowContribution).foldl
        (fun d kv => alistInsert d kv.1 kv.2) d := by
  induction rows generalizing d with
  | nil => rfl
  | cons r rs ih =>
    cases h : Clemson.rowContribution r with
    | none => simp [List.foldl_cons, List.filterMap_cons, h, ih]
    | some kv => simp [List.foldl_cons, List.filterMap_cons, h, ih]

/-- Dict lookup after a fold of insertions: the value of the last inserted
pair with the right key, else the lookup in the start dict. -/
theorem alistGet_foldl_insert (l : List (String × String))
    (d : List (String × String)) (k : String) :
    alistGet (l.foldl (fun d kv => alistInsert d kv.1 kv.2) d) k =
      match l.reverse.find? (fun kv => kv.1 == k) with
      | some kv => some kv.2
      | Option.none => alistGet d k := by
  induction l generalizing d with
  | nil => rfl
  | cons kv l ih =>
    rw [List.foldl_cons, ih, List.reverse_cons, List.find?_append]
    cases hf : l.reverse.find? (fun kv => kv.1 == k) with
    | some p => simp [Option.or]
    | none =>
      simp only [Option.or, List.find?]
      by_cases hk : kv.1 = k
      · simp [hk, alistGet_insert_same]
      · have : (kv.1 == k) = false := by simp [hk]
        simp [this, alistGet_insert_other _ _ _ _ (Ne.symm hk)]

/-- A contributed key always comes from the renamed-output column of some
recognized label. -/
theorem Clemson.rowContribution_key (r : Clemson.Row) (kv : String × String)
    (h : Clemson.rowContribution r = some kv) :
    ∃ l, (l, kv.1) ∈ Clemson.labelTable := by
  obtain ⟨hdr, vc⟩ := r
  cases hdr with
  | none => simp [Clemson.rowContribution] at h
  | some hd =>
    cases vc with
    | none => simp [Clemson.rowContribution] at h
    | some v =>
      simp only [Clemson.rowContribution] at h
      cases hf : Clemson.labelTable.find? (fun p => pyIn p.1 (pyStrip hd)) with
      | none => rw [hf] at h; simp at h
      | some p =>
        rw [hf] at h
        simp only [Option.some.injEq] at h
        have hp := List.mem_of_find?_eq_some hf
        refine ⟨p.1, ?_⟩
        rw [← h]
        simpa using hp

/-- C5 fails as stated: in the row below the label `Buffer pH` occurs in
the `th` header text (which also contains `Soil pH`) and the header has a
following `td`, yet the returned dict carries no `Buffer pH` key at all —
the `elif` chain only records the first matching label. -/
theorem claim_C5_counterexample :
    pyIn "Buffer pH" (pyStrip "Soil pH Buffer pH") = true ∧
    (Clemson.Row.mk (some "Soil pH Buffer pH") (some "1")).valueCell = some "1" ∧
    Clemson.get_analysis_data
        (some ⟨some [Clemson.Row.mk (some "Soil pH Buffer pH") (some "1")]⟩) =
      [("Soil pH", "1")] ∧
    alistGet
        (Clemson.get_analysis_data
          (some ⟨some [Clemson.Row.mk (some "Soil pH Buffer pH") (some "1")]⟩))
        "Buffer pH" = Option.none := by
  refine ⟨by decide, rfl, by decide, by decide⟩

/-- C5 (amended): for a parsed analysis table, each row with a `th` header
and a following `td` contributes under the renamed output key of the
FIRST label of the `if`/`elif` chain contained in its stripped header; the
returned dict maps a key `k` to `v` exactly when the LAST contributing row
for `k` carried `v`; keys never leave the 15 renamed columns; and a `None`
table or a table without `tbody` yields the empty dict. -/
theorem claim_C5_field_extraction (tb : Clemson.Table) (rows : List Clemson.Row)
    (k v : String) (h : tb.tbody = some rows) :
    Clemson.get_analysis_data Option.none = [] ∧
    Clemson.get_analysis_data (some ⟨Option.none⟩) = [] ∧
    (alistGet (Clemson.get_analysis_data (some tb)) k = some v ↔
      (rows.filterMap Clemson.rowContribution).reverse.find? (fun kv => kv.1 == k) =
        some (k, v)) ∧
    (alistGet (Clemson.get_analysis_data (some tb)) k = some v →
      ∃ l, (l, k) ∈ Clemson.labelTable) := by
  have hget : Clemson.get_analysis_data (some tb) =
      (rows.filterMap Clemson.rowContribution).foldl
        (fun d kv => alistInsert d kv.1 kv.2) [] := by
    obtain ⟨tbd⟩ := tb
    have h' : tbd = some rows := h
    subst h'
    exact Clemson.foldl_step_eq_filterMap rows []
  have hchar : alistGet (Clemson.get_analysis_data (some tb)) k = some v ↔
      (rows.filterMap Clemson.rowContribution).reverse.find? (fun kv => kv.1 == k) =
        some (k, v) := by
    rw [hget, alistGet_foldl_insert]
    cases hf : (rows.filterMap Clemson.rowContribution).reverse.find?
        (fun kv => kv.1 == k) with
    | none => simp
    | some p =>
      have hpk : p.1 = k := by simpa using List.find?_some hf
      constructor
      · intro hv
        have : p.2 = v := by simpa using hv
        rw [← hpk, ← this]
      · intro hv
        have : p = (k, v) := by simpa using hv
        simp [this]
  refine ⟨rfl, rfl, hchar, ?_⟩
  intro hv
  have hf := hchar.mp hv
  have hmem := List.mem_of_find?_eq_some hf
  rw [List.mem_reverse, List.mem_filterMap] at hmem
  obtain ⟨r, _, hr⟩ := hmem
  simpa using Clemson.rowContribution_key r (k, v) hr

/-- Witness for C5 (amended): a well-formed one-row table extracts the
stripped `Soil pH` value. -/
theorem claim_C5_witness :
    alistGet
        (Clemson.get_analysis_data
          (some ⟨some [Clemson.Row.mk (some " Soil pH ") (some " 6.1 ")]⟩))
        "Soil pH" = some "6.1" :=
  ((claim_C5_field_extraction ⟨some [Clemson.Row.mk (some " Soil pH ") (some " 6.1 ")]⟩
      [Clemson.Row.mk (some " Soil pH ") (some " 6.1 ")] "Soil pH" "6.1" rfl).2.2.1).mpr
    (by decide)

/-- Lookup in the dict-comprehension record `{c: f c for c in l}`. -/
theorem alistGet_tabulate {α : Type} (l : List String) (f : String → α) (k : String)
    (hk : k ∈ l) : alistGet (l.map (fun c => (c, f c))) k = some (f k) := by
  induction l with
  | nil => simp at hk
  | cons c cs ih =>
    by_cases hc : c = k
    · subst hc
      simp [alistGet]
    · rcases List.mem_cons.mp hk with rfl | hmem
      · exact absurd rfl hc
      · simp only [List.map_cons, alistGet, hc, if_neg]
        exact ih hmem

/-- Wrapping string values into `PyVal` commutes with dict lookup. -/
theorem alistGet_map_str (d : List (String × String)) (k : String) :
    alistGet (d.map (fun p => (p.1, PyVal.str p.2))) k = (alistGet d k).map PyVal.str := by
  induction d with
  | nil => rfl
  | cons p ps ih =>
    by_cases hp : p.1 = k
    · simp [alistGet, hp]
    · simp [alistGet, hp, ih]

/-- If `scrape_report_with_selenium` yields a record, the record is the
dict comprehension over `all_columns` of `report_data.get(col, 'N/A')`. -/
theorem Clemson.scrape_some_shape (inp : Clemson.ReportInput)
    (existing : List (List (String × PyVal))) (rec : List (String × PyVal))
    (h : Clemson.scrape_report_with_selenium inp existing = some rec) :
    ∃ lv cl, Clemson.labNumVal inp.labParam = some lv ∧
      Clemson.cropLime inp.page.recTable = some cl ∧
      rec = Clemson.all_columns.map
        (fun c => (c, (alistGet (Clemson.reportDict lv cl inp.page.analysisTable) c).getD
          (PyVal.str "N/A"))) := by
  have hbuild : Clemson.buildRecord inp = some rec := by
    unfold Clemson.scrape_report_with_selenium at h
    split at h
    · exact absurd h (by simp)
    · split at h
      · split at h
        · exact absurd h (by simp)
        · split at h
          · exact absurd h (by simp)
          · exact h
      · exact h
  unfold Clemson.buildRecord at hbuild
  split at hbuild
  · exact absurd hbuild (by simp)
  · split at hbuild
    · exact absurd hbuild (by simp)
    · rename_i a lv hlv b cl hcl
      exact ⟨lv, cl, hlv, hcl, (Option.some.inj hbuild).symm⟩

/-- Every renamed analysis column is one of the 19 output columns and
collides with none of the four keys assigned after the analysis dict. -/
theorem Clemson.analysis_key_fresh (k : String) (hk : k ∈ Clemson.labelTable.map Prod.snd) :
    k ∈ Clemson.all_columns ∧ k ≠ "LabNum" ∧ k ≠ "Crop Type" ∧
      k ≠ "Lime (lbs/1,000 ft² or /A)" ∧ k ≠ "Bulk Density (lbs/A)" := by
  simp only [Clemson.labelTable, List.map_cons, List.map_nil, List.mem_cons,
    List.not_mem_nil, or_false] at hk
  rcases hk with rfl | rfl | rfl | rfl | rfl | rfl | rfl | rfl | rfl | rfl | rfl | rfl |
    rfl | rfl | rfl <;>
    exact ⟨by decide, by decide, by decide, by decide, by decide⟩

/-- C6: every record returned by `scrape_report_with_selenium` has exactly
the 19 fixed columns, in the `all_columns` order, and every analysis
column absent from the parsed analysis dict — as well as the never-scraped
`Bulk Density (lbs/A)` — holds the string `N/A`. -/
theorem claim_C6_flat_record (inp : Clemson.ReportInput)
    (existing : List (List (String × PyVal))) (rec : List (String × PyVal))
    (h : Clemson.scrape_report_with_selenium inp existing = some rec) :
    rec.map Prod.fst = Clemson.all_columns ∧
    Clemson.all_columns.length = 19 ∧
    (∀ k ∈ Clemson.labelTable.map Prod.snd,
      alistGet (Clemson.get_analysis_data inp.page.analysisTable) k = Option.none →
      alistGet rec k = some (PyVal.str "N/A")) ∧
    alistGet rec "Bulk Density (lbs/A)" = some (PyVal.str "N/A") := by
  obtain ⟨lv, cl, hlv, hcl, hrec⟩ := Clemson.scrape_some_shape inp existing rec h
  subst hrec
  refine ⟨by rw [List.map_map]; exact List.map_id Clemson.all_columns, by decide, ?_, ?_⟩
  · intro k hk hnone
    obtain ⟨hcols, h1, h2, h3, h4⟩ := Clemson.analysis_key_fresh k hk
    rw [alistGet_tabulate _ _ _ hcols]
    unfold Clemson.reportDict
    rw [alistGet_insert_other _ _ _ _ h4, alistGet_insert_other _ _ _ _ h3,
        alistGet_insert_other _ _ _ _ h2, alistGet_insert_other _ _ _ _ h1,
        alistGet_map_str, hnone]
    rfl
  · have hcols : "Bulk Density (lbs/A)" ∈ Clemson.all_columns := by decide
    rw [alistGet_tabulate _ _ _ hcols]
    unfold Clemson.reportDict
    rw [alistGet_insert_same]
    rfl

/-- Witness for C6 at a concrete report with an empty page. -/
theorem claim_C6_witness :
    ((Clemson.scrape_report_with_selenium
        ⟨false, some "11", ⟨Option.none, Option.none⟩⟩ []).getD []).map Prod.fst =
      Clemson.all_columns :=
  (claim_C6_flat_record ⟨false, some "11", ⟨Option.none, Option.none⟩⟩ [] _ (by decide)).1

/-- C7: a failed report is atomic — any exception while scraping one
report makes `scrape_report_with_selenium` return `None`, and on `None`
the caller's loop iteration leaves `(all_data, temp_df)` exactly as it
was. -/
theorem claim_C7_atomic_failure (inp : Clemson.ReportInput)
    (existing : List (List (String × PyVal)))
    (st : List (List (String × PyVal)) × List (List (String × PyVal))) :
    (inp.fetchFails = true →
      Clemson.scrape_report_with_selenium inp existing = Option.none) ∧
    (Clemson.scrape_report_with_selenium inp st.2 = Option.none →
      Clemson.loopStep st inp = st) := by
  constructor
  · intro hf
    unfold Clemson.scrape_report_with_selenium
    simp [hf]
  · intro hn
    unfold Clemson.loopStep
    rw [hn]

/-- Witness for C7: a fetch failure yields `None` and leaves the state
untouched. -/
theorem claim_C7_witness :
    Clemson.scrape_report_with_selenium ⟨true, some "1", ⟨Option.none, Option.none⟩⟩ [] =
      Option.none ∧
    Clemson.loopStep ([], []) ⟨true, some "1", ⟨Option.none, Option.none⟩⟩ = ([], []) :=
  have h := claim_C7_atomic_failure ⟨true, some "1", ⟨Option.none, Option.none⟩⟩ [] ([], [])
  ⟨h.1 rfl, h.2 (h.1 rfl)⟩

/-- C9: a report URL without an `id` query parameter is never caught by the
duplicate check (the result does not depend on the accumulated table), and
a successfully scraped such report carries `LabNum = None` rather than an
integer. -/
theorem claim_C9_missing_id (inp : Clemson.ReportInput) (h : inp.labParam = Option.none) :
    (∀ e1 e2, Clemson.scrape_report_with_selenium inp e1 =
      Clemson.scrape_report_with_selenium inp e2) ∧
    (∀ ex rec, Clemson.scrape_report_with_selenium inp ex = some rec →
      alistGet rec "LabNum" = some PyVal.none) := by
  have hbr : ∀ ex, Clemson.scrape_report_with_selenium inp ex =
      if inp.fetchFails then Option.none else Clemson.buildRecord inp := by
    intro ex
    unfold Clemson.scrape_report_with_selenium
    have ht : Clemson.labTruthy inp.labParam = false := by rw [h]; rfl
    simp [ht]
  constructor
  · intro e1 e2
    rw [hbr e1, hbr e2]
  · intro ex rec hrec
    obtain ⟨lv, cl, hlv, hcl, hshape⟩ := Clemson.scrape_some_shape inp ex rec hrec
    rw [h] at hlv
    simp only [Clemson.labNumVal, Option.some.injEq] at hlv
    subst hlv
    rw [hshape,
      alistGet_tabulate _ _ _ (show "LabNum" ∈ Clemson.all_columns by decide)]
    unfold Clemson.reportDict
    rw [alistGet_insert_other _ _ _ _ (by decide), alistGet_insert_other _ _ _ _ (by decide),
        alistGet_insert_other _ _ _ _ (by decide), alistGet_insert_same]
    rfl

/-- Witness for C9: with no `id` parameter the result ignores the
accumulated table, and the scraped record's `LabNum` is `None`. -/
theorem claim_C9_witness :
    Clemson.scrape_report_with_selenium ⟨false, Option.none, ⟨Option.none, Option.none⟩⟩ [] =
      Clemson.scrape_report_with_selenium ⟨false, Option.none, ⟨Option.none, Option.none⟩⟩
        [[("LabNum", PyVal.int 25050901)]] ∧
    alistGet
        ((Clemson.scrape_report_with_selenium
          ⟨false, Option.none, ⟨Option.none, Option.none⟩⟩ []).getD [])
        "LabNum" = some PyVal.none :=
  ⟨(claim_C9_missing_id ⟨false, Option.none, ⟨Option.none, Option.none⟩⟩ rfl).1
      [] [[("LabNum", PyVal.int 25050901)]],
   (claim_C9_missing_id ⟨false, Option.none, ⟨Option.none, Option.none⟩⟩ rfl).2
      [] _ (by decide)⟩

/-- C4 is false as stated: `streamlit_app.py` does have a recovery strategy
beyond catch-and-log — when the fetched report page shows the lab's
`Page Timeout` / `REFRESH your Results page` message it refreshes the
results page and fetches the report a second time (lines 111–122), so the
parsed page is the retried fetch, not the first one. -/
theorem claim_C4_counterexample :
    ¬ ∀ first retryHtml : String,
        StreamlitApp.loadReportPage first retryHtml = (first, 1) := by
  intro hall
  have h1 := hall "Page Timeout" "recovered report page"
  have h2 : StreamlitApp.loadReportPage "Page Timeout" "recovered report page" =
      ("recovered report page", 2) := by decide
  rw [h2] at h1
  exact (by decide : ¬ (("recovered report page", (2 : Nat)) = ("Page Timeout", 1))) h1

/-- C4 (amended): the only recovery beyond catch-and-log is the single
timeout retry of `streamlit_app.py` — a second fetch happens exactly when
the first page shows the timeout message, otherwise the first fetch is
parsed — and in `clemson_report_automation.py` an exception makes the
report yield `None` with no retry at all. -/
theorem claim_C4_failure_handling (first retryHtml : String) (inp : Clemson.ReportInput)
    (existing : List (List (String × PyVal))) :
    ((StreamlitApp.loadReportPage first retryHtml).2 = 2 ↔
      StreamlitApp.pageTimeout first = true) ∧
    (StreamlitApp.pageTimeout first = false →
      StreamlitApp.loadReportPage first retryHtml = (first, 1)) ∧
    (StreamlitApp.pageTimeout first = true →
      StreamlitApp.loadReportPage first retryHtml = (retryHtml, 2)) ∧
    (inp.fetchFails = true →
      Clemson.scrape_report_with_selenium inp existing = Option.none) := by
  refine ⟨?_, ?_, ?_, ?_⟩
  · unfold StreamlitApp.loadReportPage
    cases h : StreamlitApp.pageTimeout first <;> simp [h]
  · intro h
    unfold StreamlitApp.loadReportPage
    simp [h]
  · intro h
    unfold StreamlitApp.loadReportPage
    simp [h]
  · intro h
    unfold Clemson.scrape_report_with_selenium
    simp [h]

/-- Witness for C4 (amended): a clean page is parsed from the first fetch;
a fetch failure in the other script yields `None`. -/
theorem claim_C4_witness :
    StreamlitApp.loadReportPage "a normal report page" "unused" = ("a normal report page", 1) ∧
    Clemson.scrape_report_with_selenium ⟨true, some "9", ⟨Option.none, Option.none⟩⟩ [] =
      Option.none :=
  ⟨(claim_C4_failure_handling "a normal report page" "unused"
      ⟨true, some "9", ⟨Option.none, Option.none⟩⟩ []).2.1 (by decide),
   (claim_C4_failure_handling "a normal report page" "unused"
      ⟨true, some "9", ⟨Option.none, Option.none⟩⟩ []).2.2.2 rfl⟩

/-- On a covered row the cell accesses cannot raise and `buildRow` returns
the initial record. -/
theorem StreamlitApp.buildRow_covers (ix : StreamlitApp.Indices) (cells : List String)
    (hcov : StreamlitApp.rowCovers ix cells) :
    StreamlitApp.buildRow ix cells = some (StreamlitApp.initRow ix cells) := by
  obtain ⟨h1, h2, h3, h4, h5, h6⟩ := hcov
  unfold StreamlitApp.buildRow StreamlitApp.initRow
  rw [List.get?_eq_get h1, List.get?_eq_get h2, List.get?_eq_get h3, List.get?_eq_get h4,
      List.get?_eq_get h5, List.get?_eq_get h6]
  rfl

/-- On covered rows the collection loop keeps exactly the rows with a `td`
cell, in order, each as its initial record. -/
theorem StreamlitApp.buildData_covers (ix : StreamlitApp.Indices)
    (rows : List (List String))
    (hcov : ∀ cells ∈ rows, cells.isEmpty = false → StreamlitApp.rowCovers ix cells) :
    StreamlitApp.buildData ix rows =
      some ((rows.filter (fun c => !c.isEmpty)).map (StreamlitApp.initRow ix)) := by
  induction rows with
  | nil => rfl
  | cons cells rest ih =>
    have ihr := ih (fun c hc he => hcov c (List.mem_cons_of_mem cells hc) he)
    cases he : cells.isEmpty with
    | true =>
      unfold StreamlitApp.buildData
      simp [he, ihr, List.filter_cons]
    | false =>
      have hb := StreamlitApp.buildRow_covers ix cells
        (hcov cells (List.mem_cons_self cells rest) he)
      unfold StreamlitApp.buildData
      simp [he, hb, ihr, List.filter_cons]

/-- The report loop leaves the list length unchanged. -/
theorem StreamlitApp.reportLoop_length (outcomes : Nat → Option String) (i : Nat)
    (rs : List StreamlitApp.RowRec) :
    (StreamlitApp.reportLoop outcomes i rs).length = rs.length := by
  induction rs generalizing i with
  | nil => rfl
  | cons r rest ih =>
    unfold StreamlitApp.reportLoop
    simp [ih]

/-- Indexing into the report loop's output. -/
theorem StreamlitApp.reportLoop_get? (outcomes : Nat → Option String) (i j : Nat)
    (rs : List StreamlitApp.RowRec) :
    (StreamlitApp.reportLoop outcomes i rs).get? j =
      (rs.get? j).map (fun r => StreamlitApp.updateRow r (outcomes (i + j))) := by
  induction rs generalizing i j with
  | nil => cases j <;> rfl
  | cons r rest ih =>
    cases j with
    | zero => rfl
    | succ j =>
      unfold StreamlitApp.reportLoop
      simp only [List.get?]
      rw [ih (i + 1) j]
      have : i + 1 + j = i + (j + 1) := by omega
      rw [this]

/-- C10 is false as stated: a results row carrying a `td` cell but fewer
cells than the column indices require makes `cells[idx]` raise an
`IndexError` that no per-row handler catches, so the run aborts and no
output dataframe exists at all — not even rows for the other inputs. -/
theorem claim_C10_counterexample :
    StreamlitApp.scrapeRun ⟨0, 1, 2, 3, 4, 5⟩
        [["Name", "Date Sampled", "Sample No", "LabNum", "Soil pH", "Buffer pH"],
         ["orphan cell"]]
        (fun _ => Option.none) = Option.none := by
  decide

/-- C10 (amended): provided every non-empty row has cells at all six column
indices, the run yields a dataframe with exactly one record per row with a
`td` cell, in order; each record starts with `Crop` and `Lime` empty; and
a row whose report fetch fails keeps its initial record — the six scraped
fields unchanged and `Crop`/`Lime` still the empty string. -/
theorem claim_C10_row_preservation (ix : StreamlitApp.Indices)
    (trs : List (List String)) (outcomes : Nat → Option String)
    (hcov : ∀ cells ∈ trs.drop 1, cells.isEmpty = false → StreamlitApp.rowCovers ix cells) :
    (∃ out, StreamlitApp.scrapeRun ix trs outcomes = some out ∧
      out.length = (((trs.drop 1).filter (fun c => !c.isEmpty)).map
        (StreamlitApp.initRow ix)).length) ∧
    (∀ cells, (StreamlitApp.initRow ix cells).crop = "" ∧
      (StreamlitApp.initRow ix cells).lime = "") ∧
    (∀ j cells, outcomes j = Option.none →
      ((trs.drop 1).filter (fun c => !c.isEmpty)).get? j = some cells →
      (StreamlitApp.scrapeRun ix trs outcomes).bind (fun out => out.get? j) =
        some (StreamlitApp.initRow ix cells)) := by
  have hbd := StreamlitApp.buildData_covers ix (trs.drop 1) hcov
  have hrun : StreamlitApp.scrapeRun ix trs outcomes =
      some (StreamlitApp.reportLoop outcomes 0
        (((trs.drop 1).filter (fun c => !c.isEmpty)).map (StreamlitApp.initRow ix))) := by
    unfold StreamlitApp.scrapeRun
    rw [hbd]
    rfl
  refine ⟨⟨_, hrun, StreamlitApp.reportLoop_length _ _ _⟩, fun cells => ⟨rfl, rfl⟩, ?_⟩
  intro j cells hout hget
  rw [hrun]
  simp only [Option.some_bind]
  rw [StreamlitApp.reportLoop_get?, List.get?_map, hget]
  simp only [Option.map_some, Nat.zero_add, hout]
  rfl

/-- Witness for C10 (amended): one well-formed row whose report fetch fails
survives with its scraped fields and empty `Crop`/`Lime`. -/
theorem claim_C10_witness :
    (StreamlitApp.scrapeRun ⟨0, 1, 2, 3, 4, 5⟩
        [["Name", "Date Sampled", "Sample No", "LabNum", "Soil pH", "Buffer pH"],
         ["ACME FARM", "04/01/2025", "S1", "25050901", "6.1", "7.6"]]
        (fun _ => Option.none)).bind (fun out => out.get? 0) =
      some (StreamlitApp.initRow ⟨0, 1, 2, 3, 4, 5⟩
        ["ACME FARM", "04/01/2025", "S1", "25050901", "6.1", "7.6"]) :=
  (claim_C10_row_preservation ⟨0, 1, 2, 3, 4, 5⟩
      [["Name", "Date Sampled", "Sample No", "LabNum", "Soil pH", "Buffer pH"],
       ["ACME FARM", "04/01/2025", "S1", "25050901", "6.1", "7.6"]]
      (fun _ => Option.none) (by decide)).2.2 0
    ["ACME FARM", "04/01/2025", "S1", "25050901", "6.1", "7.6"] rfl (by decide)

/-- `drop_duplicates(subset=['LabNum'])` yields pairwise-distinct `LabNum`
keys, none of them previously seen. -/
theorem Clemson.dropDupLab_nodup (l : List (List (String × PyVal)))
    (seen : List (Option Int)) :
    ((Clemson.dropDupLab l seen).map Clemson.labOf).Nodup ∧
      ∀ k ∈ (Clemson.dropDupLab l seen).map Clemson.labOf, k ∉ seen := by
  induction l generalizing seen with
  | nil => exact ⟨List.nodup_nil, by simp [Clemson.dropDupLab]⟩
  | cons r rs ih =>
    by_cases hr : Clemson.labOf r ∈ seen
    · have := ih seen
      unfold Clemson.dropDupLab
      simp only [hr, if_pos]
      exact this
    · have ihs := ih (Clemson.labOf r :: seen)
      unfold Clemson.dropDupLab
      simp only [hr, if_neg, not_false_iff, List.map_cons, List.nodup_cons]
      refine ⟨⟨?_, ihs.1⟩, ?_⟩
      · intro hmem
        exact (ihs.2 (Clemson.labOf r) hmem) (List.mem_cons_self _ _)
      · intro k hk
        rcases List.mem_cons.mp hk with rfl | hmem
        · exact hr
        · intro hks
          exact (ihs.2 k hmem) (List.mem_cons_of_mem _ hks)

/-- Inserting into the sorted list is a permutation of consing. -/
theorem Clemson.insertLab_perm (r : List (String × PyVal))
    (l : List (List (String × PyVal))) : (Clemson.insertLab r l).Perm (r :: l) := by
  induction l with
  | nil => exact List.Perm.refl _
  | cons s ss ih =>
    unfold Clemson.insertLab
    by_cases h : Clemson.labLe r s
    · simp only [h, if_pos]
      exact List.Perm.refl _
    · simp only [h, if_neg, not_false_iff]
      exact (List.Perm.cons s ih).trans (List.Perm.swap r s ss)

/-- The `sort_values(by='LabNum')` model permutes the rows. -/
theorem Clemson.sortByLab_perm (l : List (List (String × PyVal))) :
    (Clemson.sortByLab l).Perm l := by
  induction l with
  | nil => exact List.Perm.refl _
  | cons r rs ih =>
    unfold Clemson.sortByLab
    exact (Clemson.insertLab_perm r (Clemson.sortByLab rs)).trans (List.Perm.cons r ih)

/-- C1: one row per lab sample.  A report whose (parsed, integral) lab
number is already a `LabNum` of the accumulated table is skipped with
`None`; and after a completed `Start Scraping` run the session table has
pairwise-distinct `LabNum` values whenever it had them before the run —
the concatenation is passed through
`drop_duplicates(subset=['LabNum'])`. -/
theorem claim_C1_one_row_per_labnum (links : List Clemson.ReportInput)
    (session : List (List (String × PyVal)))
    (h : (session.map Clemson.labOf).Nodup) :
    ((Clemson.runRun links session).map Clemson.labOf).Nodup ∧
    (∀ (inp : Clemson.ReportInput) (existing : List (List (String × PyVal))) (n : Int),
      Clemson.labTruthy inp.labParam = true →
      Clemson.hasLabNumCol existing = true →
      pyInt (inp.labParam.getD "") = some n →
      some n ∈ existing.map Clemson.labOf →
      Clemson.scrape_report_with_selenium inp existing = Option.none) := by
  constructor
  · unfold Clemson.runRun
    cases hres : (links.foldl Clemson.loopStep ([], session)).1.isEmpty with
    | true =>
      simp only [hres, if_pos]
      exact h
    | false =>
      simp only [hres, if_neg, Bool.false_eq_true, not_false_iff]
      have hd := (Clemson.dropDupLab_nodup
        (session ++ (links.foldl Clemson.loopStep ([], session)).1) []).1
      have hperm := Clemson.sortByLab_perm
        (Clemson.dropDupLab (session ++ (links.foldl Clemson.loopStep ([], session)).1) [])
      exact (hperm.map Clemson.labOf).nodup_iff.mpr hd
  · intro inp existing n ht hcol hint hmem
    unfold Clemson.scrape_report_with_selenium
    cases hf : inp.fetchFails with
    | true => simp [hf]
    | false =>
      simp only [hf, Bool.false_eq_true, if_neg, not_false_iff, ht, hcol,
        Bool.and_self, if_pos, hint, hmem]

/-- Witness for C1: scraping the same report twice leaves a single row, and
a duplicate id is skipped. -/
theorem claim_C1_witness :
    ((Clemson.runRun
        [⟨false, some "25050901", ⟨Option.none, Option.none⟩⟩,
         ⟨false, some "25050901", ⟨Option.none, Option.none⟩⟩] []).map Clemson.labOf).Nodup ∧
    Clemson.scrape_report_with_selenium ⟨false, some "7", ⟨Option.none, Option.none⟩⟩
        [[("LabNum", PyVal.int 7)]] = Option.none :=
  have hc := claim_C1_one_row_per_labnum
    [⟨false, some "25050901", ⟨Option.none, Option.none⟩⟩,
     ⟨false, some "25050901", ⟨Option.none, Option.none⟩⟩] [] List.nodup_nil
  ⟨hc.1,
   hc.2 ⟨false, some "7", ⟨Option.none, Option.none⟩⟩ [[("LabNum", PyVal.int 7)]] 7
     (by decide) (by decide) (by decide) (by decide)⟩

/-! ### base64 / UTF-8 lemmas -/

theorem sixBitOf_sixBitChar {n : Nat} (h : n < 64) : sixBitOf (sixBitChar n) = some n :=
  (by decide : ∀ m : Fin 64, sixBitOf (sixBitChar m.val) = some m.val) ⟨n, h⟩

theorem sixBitChar_ne_pad (n : Nat) : sixBitChar n ≠ '=' := by
  rcases Nat.lt_or_ge n 64 with h | h
  · exact (by decide : ∀ m : Fin 64, sixBitChar m.val ≠ '=') ⟨n, h⟩
  · unfold sixBitChar
    rw [List.getD_eq_default _ _ (by simpa using h)]
    decide

theorem sixBitChar_ne_quote (n : Nat) : sixBitChar n ≠ '"' := by
  rcases Nat.lt_or_ge n 64 with h | h
  · exact (by decide : ∀ m : Fin 64, sixBitChar m.val ≠ '"') ⟨n, h⟩
  · unfold sixBitChar
    rw [List.getD_eq_default _ _ (by simpa using h)]
    decide

theorem b64Decode_chunk (w x y z : Nat) (hw : w < 64) (hx : x < 64) (hy : y < 64)
    (hz : z < 64) (tail : List Char) :
    b64DecodeChars (sixBitChar w :: sixBitChar x :: sixBitChar y :: sixBitChar z :: tail) =
      (b64DecodeChars tail).map
        (fun tl => (w * 4 + x / 16) :: (x % 16 * 16 + y / 4) :: (y % 4 * 64 + z) :: tl) := by
  have hyp : (sixBitChar y = '=') = False := eq_false (sixBitChar_ne_pad y)
  have hzp : (sixBitChar z = '=') = False := eq_false (sixBitChar_ne_pad z)
  simp only [b64DecodeChars, sixBitOf_sixBitChar hw, sixBitOf_sixBitChar hx,
    sixBitOf_sixBitChar hy, sixBitOf_sixBitChar hz, hyp, hzp, if_false]

theorem b64Decode_pad2 (w x : Nat) (hw : w < 64) (hx : x < 64) :
    b64DecodeChars [sixBitChar w, sixBitChar x, '=', '='] = some [w * 4 + x / 16] := by
  simp only [b64DecodeChars, sixBitOf_sixBitChar hw, sixBitOf_sixBitChar hx]
  rfl

theorem b64Decode_pad1 (w x y : Nat) (hw : w < 64) (hx : x < 64) (hy : y < 64) :
    b64DecodeChars [sixBitChar w, sixBitChar x, sixBitChar y, '='] =
      some [w * 4 + x / 16, x % 16 * 16 + y / 4] := by
  have hyp : (sixBitChar y = '=') = False := eq_false (sixBitChar_ne_pad y)
  simp only [b64DecodeChars, sixBitOf_sixBitChar hw, sixBitOf_sixBitChar hx,
    sixBitOf_sixBitChar hy, hyp, if_false]
  rfl

/-- `b64decode` inverts `b64encode` on byte lists. -/
theorem b64_decode_encode (bs : List Nat) (h : ∀ b ∈ bs, b < 256) :
    b64DecodeChars (b64EncodeBytes bs) = some bs := by
  induction bs using b64EncodeBytes.induct with
  | case1 a b c rest ih =>
    have ha : a < 256 := h a (by simp)
    have hb : b < 256 := h b (by simp)
    have hc : c < 256 := h c (by simp)
    have ihr := ih (fun x hx => h x (by simp [hx]))
    unfold b64EncodeBytes
    rw [b64Decode_chunk _ _ _ _ (by omega) (by omega) (by omega) (by omega), ihr]
    have e1 : a / 4 * 4 + (a % 4 * 16 + b / 16) / 16 = a := by omega
    have e2 : (a % 4 * 16 + b / 16) % 16 * 16 + (b % 16 * 4 + c / 64) / 4 = b := by omega
    have e3 : (b % 16 * 4 + c / 64) % 4 * 64 + c % 64 = c := by omega
    simp [e1, e2, e3]
  | case2 a b =>
    have ha : a < 256 := h a (by simp)
    have hb : b < 256 := h b (by simp)
    unfold b64EncodeBytes
    rw [b64Decode_pad1 _ _ _ (by omega) (by omega) (by omega)]
    have e1 : a / 4 * 4 + (a % 4 * 16 + b / 16) / 16 = a := by omega
    have e2 : (a % 4 * 16 + b / 16) % 16 * 16 + b % 16 * 4 / 4 = b := by omega
    rw [e1, e2]
  | case3 a =>
    have ha : a < 256 := h a (by simp)
    unfold b64EncodeBytes
    rw [b64Decode_pad2 _ _ (by omega) (by omega)]
    have e1 : a / 4 * 4 + a % 4 * 16 / 16 = a := by omega
    rw [e1]
  | case4 => rfl

theorem char_toNat_lt (c : Char) : c.toNat < 1114112 := by
  rcases c.valid with h | ⟨h1, h2⟩
  · exact Nat.lt_trans h (by decide)
  · exact h2

theorem utf8EncodeChar_lt (c : Char) : ∀ b ∈ utf8EncodeChar c, b < 256 := by
  intro b hb
  have h := char_toNat_lt c
  unfold utf8EncodeChar at hb
  by_cases h1 : c.toNat < 128
  · simp [h1] at hb
    omega
  · by_cases h2 : c.toNat < 2048
    · simp [h1, h2] at hb
      rcases hb with rfl | rfl <;> omega
    · by_cases h3 : c.toNat < 65536
      · simp [h1, h2, h3] at hb
        rcases hb with rfl | rfl | rfl <;> omega
      · simp [h1, h2, h3] at hb
        rcases hb with rfl | rfl | rfl | rfl <;> omega

theorem utf8EncodeList_lt (cs : List Char) : ∀ b ∈ utf8EncodeList cs, b < 256 := by
  induction cs with
  | nil => simp [utf8EncodeList]
  | cons c rest ih =>
    intro b hb
    unfold utf8EncodeList at hb
    rcases List.mem_append.mp hb with hc | hr
    · exact utf8EncodeChar_lt c b hc
    · exact ih b hr

/-- `bytes.decode()` recovers the code points of the encoded string. -/
theorem utf8_decode_encodeList (cs : List Char) :
    utf8DecodeCodes (utf8EncodeList cs) = some (cs.map Char.toNat) := by
  induction cs with
  | nil => rfl
  | cons c rest ih =>
    have h := char_toNat_lt c
    unfold utf8EncodeList
    by_cases h1 : c.toNat < 128
    · have henc : utf8EncodeChar c = [c.toNat] := by
        unfold utf8EncodeChar
        simp [h1]
      rw [henc, List.cons_append, List.nil_append, utf8DecodeCodes, if_pos h1, ih]
      rfl
    · by_cases h2 : c.toNat < 2048
      · have henc : utf8EncodeChar c = [192 + c.toNat / 64, 128 + c.toNat % 64] := by
          unfold utf8EncodeChar
          simp [h1, h2]
        rw [henc, List.cons_append, List.cons_append, List.nil_append, utf8DecodeCodes,
          if_neg (by omega), if_pos (by omega : 192 ≤ 192 + c.toNat / 64 ∧ 192 + c.toNat / 64 < 224),
          utf8Tail1, if_pos (by omega : 128 ≤ 128 + c.toNat % 64 ∧ 128 + c.toNat % 64 < 192), ih]
        have hval : (192 + c.toNat / 64 - 192) * 64 + (128 + c.toNat % 64 - 128) = c.toNat := by
          omega
        rw [Option.map_some', hval]
        rfl
      · by_cases h3 : c.toNat < 65536
        · have henc : utf8EncodeChar c =
              [224 + c.toNat / 4096, 128 + c.toNat / 64 % 64, 128 + c.toNat % 64] := by
            unfold utf8EncodeChar
            simp [h1, h2, h3]
          rw [henc, List.cons_append, List.cons_append, List.cons_append, List.nil_append,
            utf8DecodeCodes, if_neg (by omega),
            if_neg (by omega : ¬ (192 ≤ 224 + c.toNat / 4096 ∧ 224 + c.toNat / 4096 < 224)),
            if_pos (by omega : 224 ≤ 224 + c.toNat / 4096 ∧ 224 + c.toNat / 4096 < 240),
            utf8Tail2,
            if_pos (by omega : (128 ≤ 128 + c.toNat / 64 % 64 ∧ 128 + c.toNat / 64 % 64 < 192) ∧
              128 ≤ 128 + c.toNat % 64 ∧ 128 + c.toNat % 64 < 192), ih]
          have hval : (224 + c.toNat / 4096 - 224) * 4096 + (128 + c.toNat / 64 % 64 - 128) * 64 +
              (128 + c.toNat % 64 - 128) = c.toNat := by omega
          rw [Option.map_some', hval]
          rfl
        · have henc : utf8EncodeChar c =
              [240 + c.toNat / 262144, 128 + c.toNat / 4096 % 64, 128 + c.toNat / 64 % 64,
               128 + c.toNat % 64] := by
            unfold utf8EncodeChar
            simp [h1, h2, h3]
          rw [henc, List.cons_append, List.cons_append, List.cons_append, List.cons_append,
            List.nil_append, utf8DecodeCodes, if_neg (by omega),
            if_neg (by omega : ¬ (192 ≤ 240 + c.toNat / 262144 ∧ 240 + c.toNat / 262144 < 224)),
            if_neg (by omega : ¬ (224 ≤ 240 + c.toNat / 262144 ∧ 240 + c.toNat / 262144 < 240)),
            if_pos (by omega : 240 ≤ 240 + c.toNat / 262144 ∧ 240 + c.toNat / 262144 < 248),
            utf8Tail3,
            if_pos (by omega : (128 ≤ 128 + c.toNat / 4096 % 64 ∧ 128 + c.toNat / 4096 % 64 < 192) ∧
              (128 ≤ 128 + c.toNat / 64 % 64 ∧ 128 + c.toNat / 64 % 64 < 192) ∧
              128 ≤ 128 + c.toNat % 64 ∧ 128 + c.toNat % 64 < 192), ih]
          have hval : (240 + c.toNat / 262144 - 240) * 262144 +
              (128 + c.toNat / 4096 % 64 - 128) * 4096 + (128 + c.toNat / 64 % 64 - 128) * 64 +
              (128 + c.toNat % 64 - 128) = c.toNat := by omega
          rw [Option.map_some', hval]
          rfl

theorem payloadAux_append_no_b (pre rest : List Char) (h : 'b' ∉ pre) :
    Clemson.payloadAux (pre ++ rest) = Clemson.payloadAux rest := by
  induction pre with
  | nil => rfl
  | cons c cs ih =>
    have hc : c ≠ 'b' := fun he => h (he ▸ List.mem_cons_self c cs)
    have hb : ('b' == c) = false := beq_eq_false_iff_ne.mpr (Ne.symm hc)
    have hstart : startsWithChars "base64,".toList (c :: (cs ++ rest)) = false := by
      have hpat : "base64,".toList = 'b' :: "ase64,".toList := rfl
      rw [hpat, startsWithChars, hb, Bool.false_and]
    rw [List.cons_append, Clemson.payloadAux, hstart]
    simp only [Bool.false_eq_true, if_false]
    exact ih (fun hm => h (List.mem_cons_of_mem c hm))

theorem startsWithChars_self_append (p t : List Char) : startsWithChars p (p ++ t) = true := by
  induction p with
  | nil => rfl
  | cons a as ih => simp [startsWithChars, ih]

theorem takeWhile_until_quote (l t : List Char) (h : ∀ c ∈ l, c ≠ '"') :
    List.takeWhile (fun ch => ch != '"') (l ++ '"' :: t) = l := by
  induction l with
  | nil => simp [List.takeWhile_cons]
  | cons c cs ih =>
    have hc : c ≠ '"' := h c (List.mem_cons_self c cs)
    simp only [List.cons_append, List.takeWhile_cons, bne_iff_ne, ne_eq, hc,
      not_false_eq_true, if_true]  -- hmm
    rw [ih (fun d hd => h d (List.mem_cons_of_mem c hd))]

theorem b64EncodeBytes_ne_quote (bs : List Nat) : ∀ ch ∈ b64EncodeBytes bs, ch ≠ '"' := by
  induction bs using b64EncodeBytes.induct with
  | case1 a b c rest ih =>
    intro ch hch
    unfold b64EncodeBytes at hch
    simp only [List.mem_cons, List.not_mem_nil, or_false] at hch
    rcases hch with rfl | rfl | rfl | rfl | hm
    · exact sixBitChar_ne_quote _
    · exact sixBitChar_ne_quote _
    · exact sixBitChar_ne_quote _
    · exact sixBitChar_ne_quote _
    · exact ih ch hm
  | case2 a b =>
    intro ch hch
    unfold b64EncodeBytes at hch
    simp only [List.mem_cons, List.not_mem_nil, or_false] at hch
    rcases hch with rfl | rfl | rfl | rfl
    · exact sixBitChar_ne_quote _
    · exact sixBitChar_ne_quote _
    · exact sixBitChar_ne_quote _
    · decide
  | case3 a =>
    intro ch hch
    unfold b64EncodeBytes at hch
    simp only [List.mem_cons, List.not_mem_nil, or_false] at hch
    rcases hch with rfl | rfl | rfl | rfl
    · exact sixBitChar_ne_quote _
    · exact sixBitChar_ne_quote _
    · decide
    · decide
  | case4 =>
    intro ch hch
    simp [b64EncodeBytes] at hch

theorem payloadOf_link (csv : String) :
    Clemson.payloadOf (Clemson.get_table_download_link csv) =
      String.mk (b64EncodeBytes (utf8Encode csv)) := by
  unfold Clemson.payloadOf Clemson.get_table_download_link
  have hdata : ("<a href=\"data:file/csv;base64," ++ String.mk (b64EncodeBytes (utf8Encode csv)) ++
      "\" download=\"clemson_soil_report_data.csv\">Download CSV file</a>").toList =
      "<a href=\"data:file/csv;".toList ++
        ("base64,".toList ++ (b64EncodeBytes (utf8Encode csv) ++
          ('"' :: " download=\"clemson_soil_report_data.csv\">Download CSV file</a>".toList))) := by
    simp only [String.toList, String.data_append]
    rfl
  rw [hdata, payloadAux_append_no_b _ _ (by decide)]
  have hcons : "base64,".toList ++ (b64EncodeBytes (utf8Encode csv) ++
      ('"' :: " download=\"clemson_soil_report_data.csv\">Download CSV file</a>".toList)) =
      'b' :: ("ase64,".toList ++ (b64EncodeBytes (utf8Encode csv) ++
        ('"' :: " download=\"clemson_soil_report_data.csv\">Download CSV file</a>".toList))) := rfl
  rw [hcons, Clemson.payloadAux]
  rw [show ('b' :: ("ase64,".toList ++ (b64EncodeBytes (utf8Encode csv) ++
        ('"' :: " download=\"clemson_soil_report_data.csv\">Download CSV file</a>".toList)))) =
      "base64,".toList ++ (b64EncodeBytes (utf8Encode csv) ++
        ('"' :: " download=\"clemson_soil_report_data.csv\">Download CSV file</a>".toList)) from rfl]
  rw [startsWithChars_self_append]
  simp only [if_true]
  rw [show ("base64,".toList ++ (b64EncodeBytes (utf8Encode csv) ++
      ('"' :: " download=\"clemson_soil_report_data.csv\">Download CSV file</a>".toList))).drop 7 =
      b64EncodeBytes (utf8Encode csv) ++
        ('"' :: " download=\"clemson_soil_report_data.csv\">Download CSV file</a>".toList) from rfl]
  rw [takeWhile_until_quote _ _ (b64EncodeBytes_ne_quote _)]

/-- C8: base64-decoding the payload embedded in the href of the anchor
built by `get_table_download_link` yields exactly the bytes of the CSV
text `df.to_csv(index=False)`, and those bytes decode back to the CSV
text's code points — serialization into the download link followed by
base64 decoding is the identity on the CSV serialization. -/
theorem claim_C8_download_roundtrip (csv : String) :
    b64DecodeString (Clemson.payloadOf (Clemson.get_table_download_link csv)) =
      some (utf8Encode csv) ∧
    utf8DecodeCodes (utf8Encode csv) = some (csv.toList.map Char.toNat) := by
  constructor
  · rw [payloadOf_link]
    unfold b64DecodeString
    rw [show (String.mk (b64EncodeBytes (utf8Encode csv))).toList =
        b64EncodeBytes (utf8Encode csv) from rfl]
    exact b64_decode_encode _ (utf8EncodeList_lt _)
  · exact utf8_decode_encodeList csv.toList
